import Mathlib

/-!
# The New Relic logspout adapter: batching, flush and retry

A shallow embedding of `newrelic/newrelic.go`.

* Go `string` and `[]byte` values are finite byte sequences (`GoString`).
* The `uint64` fields of `Adapter` and `Line` are natural numbers; the one
  arithmetic operation on them, `line.Retried++`, is reduced modulo `2 ^ 64`.
* `byteSize` in `readQueue` is a Go `int` that only ever holds the total length
  of byte slices that are live in memory at the same time, so the additions do
  not wrap and the counter is a natural number.
* Sends on `adapter.Queue` and the `go adapter.retry(buffer)` statement are
  recorded as outputs of the functions that perform them.
* The loop of `readQueue` is given twice. `readQueueIter` and `readQueueLoop`
  run the synchronous call `adapter.flushBuffer(buffer)`, so a panic of
  `flushBuffer` ends the loop. `readQueueStep` and `readQueue` only record the
  call; every run of `readQueueLoop` that returns is a run of `readQueue`
  (`readQueueLoopFrom_ok`), so a property of all states of `readQueue` is a
  property of all states the running loop reaches.
* The library calls `json.Marshal`, `json.Unmarshal`, `Encoder.Encode`,
  `http.NewRequest` and `HTTPClient.Do` are parameters of the model.
-/

namespace Newrelic

/-! ## Data model -/

/-- Go `string` or `[]byte`: a finite sequence of bytes. -/
abbrev GoString := List UInt8

/-- Bytes of a Go string literal. -/
def lit (s : String) : GoString := s.toUTF8.data.toList

/-- Number of values of the Go type `uint64`. -/
def uint64Size : Nat := 2 ^ 64

/-- Fields of `Adapter` that the modelled functions read. -/
structure Adapter where
  Hostname : GoString
  Verbose : Bool
  MaxBufferSize : Nat
  MaxLineLength : Nat
  MaxRequestRetry : Nat
deriving DecidableEq

/-- Line contains the message and number of post retries. -/
structure Line where
  Log : GoString
  Retried : Nat
deriving DecidableEq

/-- ContainerInfo contains the container attributes. -/
structure ContainerInfo where
  Name : GoString
  ID : GoString
  PID : Int
  Image : GoString
deriving DecidableEq

set_option linter.dupNamespace false in
/-- Message is the actual log structure. -/
structure Message where
  Timestamp : Int
  Message : GoString
  Container : ContainerInfo
  Level : GoString
  Hostname : GoString
deriving DecidableEq

/-- The zero value of `Message` (`var msg Message`). -/
def zeroMessage : Message :=
  { Timestamp := 0, Message := [], Container := { Name := [], ID := [], PID := 0, Image := [] },
    Level := [], Hostname := [] }

/-- A non-nil Go `error` value: its text and whether its dynamic type
satisfies the interface `net.Error`. -/
structure GoError where
  text : GoString
  isNetError : Bool
deriving DecidableEq

/-- Fields of `router.Message` read by `Stream`. -/
structure RouterMessage where
  Data : GoString
  Source : GoString
  ContainerName : GoString
  ContainerID : GoString
  ContainerPid : Int
  ContainerImage : GoString
  ContainerHostname : GoString
deriving DecidableEq

/-! ## Helpers -/

/-- `Adapter.sanitizeMessage`. -/
def sanitizeMessage (adapter : Adapter) (message : GoString) : GoString :=
  if message.length > adapter.MaxLineLength then
    message.take adapter.MaxLineLength ++ lit " (cut off, too long...)"
  else
    message

/-- `Adapter.getLevel`. -/
def getLevel (source : GoString) : GoString :=
  if source = lit "stdout" then lit "INFO"
  else if source = lit "stderr" then lit "ERROR"
  else lit ""

/-- `Adapter.getHost`. -/
def getHost (adapter : Adapter) (containerHostname : GoString) : GoString :=
  if adapter.Hostname ≠ lit "" then adapter.Hostname else containerHostname

/-! ## Stream -/

/-- `Adapter.Stream`: the lines sent on `adapter.Queue`, in order, for the
messages read from `logstream`. Each message comes with the reading of
`time.Now().Unix()` taken for it; `Marshal` is `json.Marshal`. -/
def Stream (adapter : Adapter) (Marshal : Message → GoString × Option GoError) :
    List (Int × RouterMessage) → List Line
  | [] => []
  | (now, m) :: rest =>
    if adapter.Verbose ∨ m.ContainerImage ≠ lit "newrelic/logspout" then
      match Marshal
          { Timestamp := now
            Message := sanitizeMessage adapter m.Data
            Container :=
              { Name := m.ContainerName, ID := m.ContainerID, PID := m.ContainerPid,
                Image := m.ContainerImage }
            Level := getLevel m.Source
            Hostname := getHost adapter m.ContainerHostname } with
      | (_, some _) => Stream adapter Marshal rest
      | (messageStr, none) => { Log := messageStr, Retried := 0 } :: Stream adapter Marshal rest
    else
      Stream adapter Marshal rest

/-! ## readQueue -/

/-- Local variables `buffer` and `byteSize` of `readQueue`. -/
structure LoopState where
  buffer : List Line
  byteSize : Nat
deriving DecidableEq

/-- Values of the locals when the loop is entered. -/
def LoopState.init : LoopState := { buffer := [], byteSize := 0 }

/-- The two cases of the `select` statement in `readQueue`. -/
inductive Wakeup where
  /-- Arrival: `case msg := <-adapter.Queue`. -/
  | msg (m : Line)
  /-- Timer expiry: `case <-timeout.C`. -/
  | timeout
deriving DecidableEq

/-- One iteration of the `for { select { ... } }` loop of `readQueue`. The
first component lists the arguments of the calls `adapter.flushBuffer(buffer)`
made by the iteration, the second holds the locals after it. The call is
recorded, not run: the iteration is described for a call that returns. The
iteration with the call run is `readQueueIter` below. -/
def readQueueStep (adapter : Adapter) (s : LoopState) : Wakeup → List (List Line) × LoopState
  | .msg msg =>
    let r : List (List Line) × LoopState :=
      if s.byteSize ≥ adapter.MaxBufferSize then
        ([s.buffer], { buffer := [], byteSize := 0 })
      else
        ([], s)
    (r.1, { buffer := r.2.buffer ++ [msg], byteSize := r.2.byteSize + msg.Log.length })
  | .timeout =>
    if s.buffer.length > 0 then
      ([s.buffer], { buffer := [], byteSize := 0 })
    else
      ([], s)

/-- The loop of `readQueue` run over a finite sequence of wakeups: all batches
passed to `flushBuffer`, in call order, and the locals at the end. -/
def readQueueFrom (adapter : Adapter) : LoopState → List Wakeup → List (List Line) × LoopState
  | s, [] => ([], s)
  | s, w :: ws =>
    let r := readQueueStep adapter s w
    let r2 := readQueueFrom adapter r.2 ws
    (r.1 ++ r2.1, r2.2)

/-- `Adapter.readQueue` from its initial locals. -/
def readQueue (adapter : Adapter) (ws : List Wakeup) : List (List Line) × LoopState :=
  readQueueFrom adapter LoopState.init ws

/-- Lines received from `adapter.Queue` in a sequence of wakeups. -/
def arrivals : List Wakeup → List Line
  | [] => []
  | .msg m :: ws => m :: arrivals ws
  | .timeout :: ws => arrivals ws

/-! ## retry -/

/-- `Adapter.retry`: the lines sent on `adapter.Queue`, in order. -/
def retry (adapter : Adapter) : List Line → List Line
  | [] => []
  | line :: rest =>
    if line.Retried < adapter.MaxRequestRetry then
      { line with Retried := (line.Retried + 1) % uint64Size } :: retry adapter rest
    else
      retry adapter rest

/-! ## flushBuffer -/

/-- Response of the collector as far as `flushBuffer` reads it. -/
structure Response where
  StatusCode : Int
deriving DecidableEq

/-- Library calls made by one run of `flushBuffer`. -/
structure FlushEnv where
  /-- Call `json.Unmarshal(line.Log, &msg)`: the value of `msg` after the call
  and the returned error. -/
  Unmarshal : GoString → Message → Message × Option GoError
  /-- Call `json.NewEncoder(&data).Encode(body)` for the `Logs` of `body`: the
  bytes written to `data` and the returned error. -/
  Encode : List Message → GoString × Option GoError
  /-- Error returned by `http.NewRequest("POST", adapter.Endpoint, &data)`. -/
  NewRequest : Option GoError
  /-- Call `adapter.HTTPClient.Do(req)` for the request body `data`. -/
  Do : GoString → Option Response × Option GoError

/-- Lines written with `adapter.Log.Println` by `flushBuffer`. -/
inductive LogEntry where
  | unmarshalling (e : GoError)
  | encoding (e : GoError)
  | newRequest (e : GoError)
  | post (e : GoError)
  | statusCode (code : Int)
deriving DecidableEq

/-- Run-time panics of `flushBuffer`. -/
inductive Panic where
  /-- Method call on a nil `error`, or field access through a nil `*http.Request`. -/
  | nilDereference
deriving DecidableEq

/-- What a run of `flushBuffer` that returns has done. -/
structure FlushTrace where
  /-- Lines written to the operational log. -/
  logged : List LogEntry
  /-- The `Logs` field of `body`. -/
  logs : List Message
  /-- The request body given to `HTTPClient.Do`, when the call is reached. -/
  posted : Option GoString
  /-- The argument of `go adapter.retry(buffer)`, when the statement is run. -/
  retried : Option (List Line)
deriving DecidableEq

/-- The loop `for _, line := range buffer` of `flushBuffer`, from the current
values of `msg`, `logs` and the log output. -/
def unmarshalLoop (env : FlushEnv) :
    List Line → Message → List Message → List LogEntry →
      Except Panic (List Message × List LogEntry)
  | [], _, logs, out => .ok (logs, out)
  | line :: rest, msg, logs, out =>
    match env.Unmarshal line.Log msg with
    | (_, none) => .error .nilDereference
    | (msg1, some e) => unmarshalLoop env rest msg1 (logs ++ [msg1]) (out ++ [.unmarshalling e])

/-- `Adapter.flushBuffer`. -/
def flushBuffer (env : FlushEnv) (buffer : List Line) : Except Panic FlushTrace :=
  match unmarshalLoop env buffer zeroMessage [] [] with
  | .error p => .error p
  | .ok (logs, out) =>
    match env.Encode logs with
    | (_, some e) =>
      .ok { logged := out ++ [.encoding e], logs := logs, posted := none, retried := none }
    | (data, none) =>
      match env.NewRequest with
      | some _ => .error .nilDereference
      | none =>
        match env.Do data with
        | (_, some err) =>
          if err.isNetError then
            .ok { logged := out, logs := logs, posted := some data, retried := some buffer }
          else
            .ok { logged := out ++ [.post err], logs := logs, posted := some data,
                  retried := none }
        | (some resp, none) =>
          if resp.StatusCode ≠ 200 then
            .ok { logged := out ++ [.statusCode resp.StatusCode], logs := logs,
                  posted := some data, retried := none }
          else
            .ok { logged := out, logs := logs, posted := some data, retried := none }
        | (none, none) =>
          .ok { logged := out, logs := logs, posted := some data, retried := none }

/-! ## readQueue with the calls of flushBuffer run -/

/-- One iteration of the `for { select { ... } }` loop of `readQueue`, with the
call `adapter.flushBuffer(buffer)` run in the environment `env`. A panic of
`flushBuffer` is a panic of the iteration; otherwise the result lists the
batches given to `flushBuffer` and holds the locals after the iteration. -/
def readQueueIter (adapter : Adapter) (env : FlushEnv) (s : LoopState) :
    Wakeup → Except Panic (List (List Line) × LoopState)
  | .msg msg =>
    if s.byteSize ≥ adapter.MaxBufferSize then
      match flushBuffer env s.buffer with
      | .error p => .error p
      | .ok _ =>
        .ok ([s.buffer], { buffer := [] ++ [msg], byteSize := 0 + msg.Log.length })
    else
      .ok ([], { buffer := s.buffer ++ [msg], byteSize := s.byteSize + msg.Log.length })
  | .timeout =>
    if s.buffer.length > 0 then
      match flushBuffer env s.buffer with
      | .error p => .error p
      | .ok _ => .ok ([s.buffer], { buffer := [], byteSize := 0 })
    else
      .ok ([], s)

/-- The loop of `readQueue` over a finite sequence of wakeups, from iteration
number `i` on. Iteration `j` makes its library calls in the environment
`envs j`. -/
def readQueueLoopFrom (adapter : Adapter) (envs : Nat → FlushEnv) :
    Nat → LoopState → List Wakeup → Except Panic (List (List Line) × LoopState)
  | _, s, [] => .ok ([], s)
  | i, s, w :: ws =>
    match readQueueIter adapter (envs i) s w with
    | .error p => .error p
    | .ok r =>
      match readQueueLoopFrom adapter envs (i + 1) r.2 ws with
      | .error p => .error p
      | .ok r2 => .ok (r.1 ++ r2.1, r2.2)

/-- `Adapter.readQueue` from its initial locals, with `flushBuffer` run. -/
def readQueueLoop (adapter : Adapter) (envs : Nat → FlushEnv) (ws : List Wakeup) :
    Except Panic (List (List Line) × LoopState) :=
  readQueueLoopFrom adapter envs 0 LoopState.init ws

/-! ## Auxiliary definitions and sample data -/

/-- A batch whose lines all carry the counter `k`. -/
def withRetried (k : Nat) (batch : List Line) : List Line :=
  batch.map (fun line => { Log := line.Log, Retried := k })

/-- An adapter with the given buffer size, line length and retry bound. -/
def sampleAdapter (maxBufferSize maxLineLength maxRequestRetry : Nat) : Adapter :=
  { Hostname := lit "host", Verbose := true, MaxBufferSize := maxBufferSize,
    MaxLineLength := maxLineLength, MaxRequestRetry := maxRequestRetry }

/-- A line as `Stream` creates it. -/
def freshLine (log : GoString) : Line := { Log := log, Retried := 0 }

/-- A batch of three fresh lines. -/
def sampleBatch : List Line := [freshLine (lit "e1"), freshLine (lit "e2"), freshLine (lit "e3")]

/-- A batch with counters 0, 1, 2 and 5. -/
def mixedBatch : List Line :=
  [{ Log := lit "a", Retried := 0 }, { Log := lit "b", Retried := 2 },
   { Log := lit "c", Retried := 1 }, { Log := lit "d", Retried := 5 }]

/-- A fresh line whose `Log` is the JSON text `\x7b\x7d`, which `json.Unmarshal`
decodes into a `Message`. -/
def jsonLine : Line := freshLine (lit "\x7b\x7d")

/-- A fresh line with an empty `Log`, which `json.Unmarshal` rejects. -/
def emptyLine : Line := freshLine (lit "")

/-- Total length of the `Log` fields of a buffer. -/
def logBytes (buffer : List Line) : Nat := (buffer.map (fun line => line.Log.length)).sum

/-- A stand-in for the library calls, used on the inputs `\x7b\x7d` and the empty
input only: `json.Unmarshal` accepts `\x7b\x7d`, leaving `msg` as it is, and rejects
the empty input without touching `msg`;
the encoder and `http.NewRequest` succeed; `HTTPClient.Do` returns `result`. -/
def sampleEnv (result : Option Response × Option GoError) : FlushEnv :=
  { Unmarshal := fun log msg =>
      if log = lit "\x7b\x7d" then (msg, none)
      else (msg, some { text := lit "unexpected end of JSON input", isNetError := false })
    Encode := fun logs => (List.replicate logs.length 0, none)
    NewRequest := none
    Do := fun _ => result }

/-- A `connection refused` error of `HTTPClient.Do`. -/
def connectionRefused : GoError := { text := lit "connection refused", isNetError := true }

/-- What `flushBuffer` does in `sampleEnv` with status 200 on a batch of one
line with empty `Log`. -/
def undecodableTrace : FlushTrace :=
  { logged := [.unmarshalling { text := lit "unexpected end of JSON input", isNetError := false }]
    logs := [zeroMessage]
    posted := some [0]
    retried := none }

/-- Two lines with an empty `Log`, which is not JSON, and different counters. -/
def undecodableBatch : List Line := [{ Log := lit "", Retried := 0 }, { Log := lit "", Retried := 1 }]

/-- What `flushBuffer` does on `undecodableBatch` when the connection is refused. -/
def refusedTrace : FlushTrace :=
  { logged := [.unmarshalling { text := lit "unexpected end of JSON input", isNetError := false },
               .unmarshalling { text := lit "unexpected end of JSON input", isNetError := false }]
    logs := [zeroMessage, zeroMessage]
    posted := some [0, 0]
    retried := some undecodableBatch }

/-- What `flushBuffer` does on `undecodableBatch` when the collector answers 500. -/
def rejectedTrace : FlushTrace :=
  { logged := [.unmarshalling { text := lit "unexpected end of JSON input", isNetError := false },
               .unmarshalling { text := lit "unexpected end of JSON input", isNetError := false },
               .statusCode 500]
    logs := [zeroMessage, zeroMessage]
    posted := some [0, 0]
    retried := none }

/-! ## Results on retry -/

/-- One run of `retry` keeps the lines below the bound and counts them up. -/
theorem retry_eq_filter_map (adapter : Adapter) (hM : adapter.MaxRequestRetry < uint64Size)
    (buffer : List Line) :
    retry adapter buffer =
      (buffer.filter (fun line => decide (line.Retried < adapter.MaxRequestRetry))).map
        (fun line => { Log := line.Log, Retried := line.Retried + 1 }) := by
  induction buffer with
  | nil => rfl
  | cons line rest ih =>
    by_cases h : line.Retried < adapter.MaxRequestRetry
    · have hlt : line.Retried + 1 < uint64Size := by omega
      simp [retry, h, ih, Nat.mod_eq_of_lt hlt]
    · simp [retry, h, ih]

theorem retry_withRetried_lt (adapter : Adapter) (hM : adapter.MaxRequestRetry < uint64Size)
    (k : Nat) (hk : k < adapter.MaxRequestRetry) (batch : List Line) :
    retry adapter (withRetried k batch) = withRetried (k + 1) batch := by
  rw [retry_eq_filter_map adapter hM]
  induction batch with
  | nil => rfl
  | cons line rest ih =>
    simp only [withRetried, List.map_cons] at ih ⊢
    simp [hk, ih]

theorem retry_withRetried_ge (adapter : Adapter) (k : Nat) (hk : adapter.MaxRequestRetry ≤ k)
    (batch : List Line) : retry adapter (withRetried k batch) = [] := by
  induction batch with
  | nil => rfl
  | cons line rest ih =>
    have h : ¬ k < adapter.MaxRequestRetry := by omega
    simp only [withRetried, List.map_cons] at ih ⊢
    simp [retry, h, ih]

theorem withRetried_zero (batch : List Line) (h0 : ∀ line ∈ batch, line.Retried = 0) :
    withRetried 0 batch = batch := by
  induction batch with
  | nil => rfl
  | cons line rest ih =>
    have hl : line.Retried = 0 := h0 line (by simp)
    have hr : withRetried 0 rest = rest := ih (fun l hmem => h0 l (by simp [hmem]))
    simp only [withRetried, List.map_cons] at hr ⊢
    rw [hr]
    cases line
    simp_all

theorem retry_iterate (adapter : Adapter) (hM : adapter.MaxRequestRetry < uint64Size)
    (batch : List Line) (h0 : ∀ line ∈ batch, line.Retried = 0) (k : Nat) :
    (retry adapter)^[k] batch =
      if k ≤ adapter.MaxRequestRetry then withRetried k batch else [] := by
  induction k with
  | zero => simp [withRetried_zero batch h0]
  | succ k ih =>
    rw [Function.iterate_succ_apply', ih]
    by_cases h1 : k < adapter.MaxRequestRetry
    · have h2 : k ≤ adapter.MaxRequestRetry := by omega
      have h3 : k + 1 ≤ adapter.MaxRequestRetry := by omega
      rw [if_pos h2, if_pos h3]
      exact retry_withRetried_lt adapter hM k h1 batch
    · have h3 : ¬ k + 1 ≤ adapter.MaxRequestRetry := by omega
      rw [if_neg h3]
      by_cases h2 : k ≤ adapter.MaxRequestRetry
      · rw [if_pos h2]
        exact retry_withRetried_ge adapter k (by omega) batch
      · rw [if_neg h2]
        rfl

/-- Lines that `Stream` puts on the queue start with `Retried = 0`. -/
theorem Stream_retried_zero (adapter : Adapter) (Marshal : Message → GoString × Option GoError)
    (ms : List (Int × RouterMessage)) : ∀ line ∈ Stream adapter Marshal ms, line.Retried = 0 := by
  induction ms with
  | nil => simp [Stream]
  | cons x rest ih =>
    obtain ⟨now, m⟩ := x
    unfold Stream
    split
    · split
      · exact ih
      · intro line hmem
        rcases List.mem_cons.mp hmem with h | h
        · rw [h]
        · exact ih line h
    · exact ih

/-- C2: one run of `retry` puts on the queue exactly the lines of the batch
with `Retried < MaxRequestRetry`, in batch order, each with its `Log` unchanged
and its `Retried` counter raised by one; the lines with
`Retried >= MaxRequestRetry` are left out. -/
theorem retry_gate (adapter : Adapter) (hM : adapter.MaxRequestRetry < uint64Size)
    (buffer : List Line) :
    retry adapter buffer =
      (buffer.filter (fun line => decide (line.Retried < adapter.MaxRequestRetry))).map
        (fun line => { Log := line.Log, Retried := line.Retried + 1 }) :=
  retry_eq_filter_map adapter hM buffer

theorem retry_gate_witness :
    (sampleAdapter 100 100 2).MaxRequestRetry < uint64Size ∧
      retry (sampleAdapter 100 100 2) mixedBatch =
        [{ Log := lit "a", Retried := 1 }, { Log := lit "c", Retried := 2 }] :=
  ⟨by decide, (retry_gate (sampleAdapter 100 100 2) (by decide) mixedBatch).trans (by decide)⟩

/-- C1: for a batch whose lines all start with `Retried = 0`, the `k`-th
consecutive run of `retry` enqueues the whole batch with `Retried = k` when
`k <= MaxRequestRetry` and nothing when `k > MaxRequestRetry`; so no enqueued
line has `Retried > MaxRequestRetry`, and once the bound is passed no line of
the batch is enqueued again. -/
theorem retry_bound (adapter : Adapter) (hM : adapter.MaxRequestRetry < uint64Size)
    (batch : List Line) (h0 : ∀ line ∈ batch, line.Retried = 0) (k : Nat) :
    ((retry adapter)^[k] batch =
        if k ≤ adapter.MaxRequestRetry then
          batch.map (fun line => { Log := line.Log, Retried := k })
        else []) ∧
      (∀ line ∈ (retry adapter)^[k] batch, line.Retried ≤ adapter.MaxRequestRetry) ∧
      (∀ j, adapter.MaxRequestRetry < j → (retry adapter)^[j] batch = []) := by
  refine ⟨retry_iterate adapter hM batch h0 k, ?_, ?_⟩
  · intro line hmem
    rw [retry_iterate adapter hM batch h0 k] at hmem
    by_cases hk : k ≤ adapter.MaxRequestRetry
    · rw [if_pos hk] at hmem
      obtain ⟨l, _, hl⟩ := List.mem_map.mp hmem
      rw [← hl]
      exact hk
    · rw [if_neg hk] at hmem
      simp at hmem
  · intro j hj
    rw [retry_iterate adapter hM batch h0 j, if_neg (by omega)]

theorem retry_bound_witness :
    (sampleAdapter 100 100 2).MaxRequestRetry < uint64Size ∧
      (∀ line ∈ sampleBatch, line.Retried = 0) ∧
      (retry (sampleAdapter 100 100 2))^[2] sampleBatch =
        [{ Log := lit "e1", Retried := 2 }, { Log := lit "e2", Retried := 2 },
         { Log := lit "e3", Retried := 2 }] ∧
      (retry (sampleAdapter 100 100 2))^[3] sampleBatch = [] :=
  ⟨by decide, by decide,
    (retry_bound (sampleAdapter 100 100 2) (by decide) sampleBatch (by decide) 2).1.trans
      (by decide),
    (retry_bound (sampleAdapter 100 100 2) (by decide) sampleBatch (by decide) 2).2.2 3
      (by decide)⟩

/-! ## Results on sanitizeMessage -/

/-- C8: `sanitizeMessage` returns a message of at most `MaxLineLength` bytes
unchanged, and otherwise the first `MaxLineLength` bytes of the message
followed by the marker " (cut off, too long...)", a result of exactly
`MaxLineLength` plus the marker length (23) bytes. -/
theorem sanitizeMessage_truncates (adapter : Adapter) (message : GoString) :
    (message.length ≤ adapter.MaxLineLength → sanitizeMessage adapter message = message) ∧
      (adapter.MaxLineLength < message.length →
        sanitizeMessage adapter message =
            message.take adapter.MaxLineLength ++ lit " (cut off, too long...)" ∧
          (sanitizeMessage adapter message).length =
            adapter.MaxLineLength + (lit " (cut off, too long...)").length ∧
          (sanitizeMessage adapter message).length = adapter.MaxLineLength + 23) := by
  have hmarker : (lit " (cut off, too long...)").length = 23 := by decide
  constructor
  · intro h
    have h1 : ¬ message.length > adapter.MaxLineLength := by omega
    simp [sanitizeMessage, h1]
  · intro h
    have h1 : message.length > adapter.MaxLineLength := h
    have h2 : sanitizeMessage adapter message =
        message.take adapter.MaxLineLength ++ lit " (cut off, too long...)" := by
      simp [sanitizeMessage, h1]
    have h3 : (sanitizeMessage adapter message).length =
        adapter.MaxLineLength + (lit " (cut off, too long...)").length := by
      rw [h2, List.length_append, List.length_take]
      have : min adapter.MaxLineLength message.length = adapter.MaxLineLength := by omega
      rw [this]
    exact ⟨h2, h3, by rw [h3, hmarker]⟩

theorem sanitizeMessage_truncates_witness :
    sanitizeMessage (sampleAdapter 100 5 2) (lit "hello") = lit "hello" ∧
      sanitizeMessage (sampleAdapter 100 5 2) (lit "hello world") =
        lit "hello (cut off, too long...)" ∧
      (sanitizeMessage (sampleAdapter 100 5 2) (lit "hello world")).length = 5 + 23 :=
  ⟨(sanitizeMessage_truncates (sampleAdapter 100 5 2) (lit "hello")).1 (by decide),
    ((sanitizeMessage_truncates (sampleAdapter 100 5 2) (lit "hello world")).2
      (by decide)).1.trans (by decide),
    ((sanitizeMessage_truncates (sampleAdapter 100 5 2) (lit "hello world")).2
      (by decide)).2.2⟩

/-! ## Results on readQueue -/

theorem readQueueStep_msg (adapter : Adapter) (s : LoopState) (msg : Line) :
    readQueueStep adapter s (.msg msg) =
      if adapter.MaxBufferSize ≤ s.byteSize then
        ([s.buffer], { buffer := [msg], byteSize := msg.Log.length })
      else
        ([], { buffer := s.buffer ++ [msg], byteSize := s.byteSize + msg.Log.length }) := by
  by_cases h : adapter.MaxBufferSize ≤ s.byteSize
  · simp [readQueueStep, h]
  · simp [readQueueStep, h]

theorem readQueueStep_timeout_nonempty (adapter : Adapter) (s : LoopState) (h : s.buffer ≠ []) :
    readQueueStep adapter s .timeout = ([s.buffer], { buffer := [], byteSize := 0 }) := by
  have hlen : s.buffer.length > 0 := List.length_pos.mpr h
  simp [readQueueStep, hlen]

theorem readQueueStep_timeout_empty (adapter : Adapter) (s : LoopState) (h : s.buffer = []) :
    readQueueStep adapter s .timeout = ([], s) := by
  simp [readQueueStep, h]

/-- C5, as stated, fails: with `MaxBufferSize = 4`
and an empty accumulator, the arrival of a 4-byte line reaches the buffer size,
yet handling it flushes nothing and the line stays buffered. -/
theorem immediate_flush_fails :
    (sampleAdapter 4 100 2).MaxBufferSize ≤
        LoopState.init.byteSize + (freshLine (lit "logs")).Log.length ∧
      readQueueStep (sampleAdapter 4 100 2) LoopState.init (.msg (freshLine (lit "logs"))) =
        ([], { buffer := [freshLine (lit "logs")], byteSize := 4 }) ∧
      readQueueStep (sampleAdapter 4 100 2) LoopState.init (.msg (freshLine (lit "logs"))) ≠
        ([LoopState.init.buffer ++ [freshLine (lit "logs")]], { buffer := [], byteSize := 0 }) ∧
      readQueueIter (sampleAdapter 4 100 2) (sampleEnv (some { StatusCode := 200 }, none))
          LoopState.init (.msg (freshLine (lit "logs"))) =
        .ok ([], { buffer := [freshLine (lit "logs")], byteSize := 4 }) :=
  ⟨by decide, by decide, by decide, rfl⟩

theorem logBytes_append (xs ys : List Line) : logBytes (xs ++ ys) = logBytes xs + logBytes ys := by
  simp [logBytes]

theorem readQueueStep_byteSize (adapter : Adapter) (s : LoopState) (w : Wakeup)
    (h : s.byteSize = logBytes s.buffer) :
    (readQueueStep adapter s w).2.byteSize = logBytes (readQueueStep adapter s w).2.buffer := by
  cases w with
  | msg m =>
    rw [readQueueStep_msg]
    split
    · simp [logBytes]
    · simp [logBytes_append, h, logBytes]
  | timeout =>
    by_cases hb : s.buffer = []
    · rw [readQueueStep_timeout_empty adapter s hb]
      exact h
    · rw [readQueueStep_timeout_nonempty adapter s hb]
      rfl

theorem readQueueFrom_byteSize (adapter : Adapter) (ws : List Wakeup) :
    ∀ s : LoopState, s.byteSize = logBytes s.buffer →
      (readQueueFrom adapter s ws).2.byteSize = logBytes (readQueueFrom adapter s ws).2.buffer := by
  induction ws with
  | nil => intro s h; exact h
  | cons w ws ih =>
    intro s h
    simp only [readQueueFrom]
    exact ih _ (readQueueStep_byteSize adapter s w h)

theorem readQueueStep_conserves (adapter : Adapter) (s : LoopState) (w : Wakeup) :
    (readQueueStep adapter s w).1.flatten ++ (readQueueStep adapter s w).2.buffer =
      s.buffer ++ arrivals [w] := by
  cases w with
  | msg m =>
    rw [readQueueStep_msg]
    split <;> simp [arrivals]
  | timeout =>
    by_cases hb : s.buffer = []
    · rw [readQueueStep_timeout_empty adapter s hb]
      simp [arrivals]
    · rw [readQueueStep_timeout_nonempty adapter s hb]
      simp [arrivals]

theorem arrivals_cons (w : Wakeup) (ws : List Wakeup) :
    arrivals (w :: ws) = arrivals [w] ++ arrivals ws := by
  cases w <;> simp [arrivals]

theorem readQueueFrom_conserves (adapter : Adapter) (ws : List Wakeup) :
    ∀ s : LoopState,
      (readQueueFrom adapter s ws).1.flatten ++ (readQueueFrom adapter s ws).2.buffer =
        s.buffer ++ arrivals ws := by
  induction ws with
  | nil => intro s; simp [readQueueFrom, arrivals]
  | cons w ws ih =>
    intro s
    simp only [readQueueFrom, List.flatten_append, List.append_assoc]
    rw [ih, ← List.append_assoc, readQueueStep_conserves, arrivals_cons w ws,
      List.append_assoc]

/-- C9: in every state that the loop of `readQueue` reaches from its initial
state by a sequence of line arrivals and timer expiries, under any
configuration, `byteSize` equals the sum of the byte lengths of the `Log`
fields of the lines in the buffer. -/
theorem byteSize_invariant (adapter : Adapter) (ws : List Wakeup) :
    (readQueue adapter ws).2.byteSize =
      ((readQueue adapter ws).2.buffer.map (fun line => line.Log.length)).sum :=
  readQueueFrom_byteSize adapter ws LoopState.init rfl

/-- C10: for every configuration and every sequence of line arrivals and timer
expiries handled by `readQueue` from its initial state, the batches passed to
`flushBuffer`, concatenated in flush order and followed by the current buffer,
are the sequence of arrived lines. -/
theorem accumulator_conservation (adapter : Adapter) (ws : List Wakeup) :
    (readQueue adapter ws).1.flatten ++ (readQueue adapter ws).2.buffer = arrivals ws := by
  have h := readQueueFrom_conserves adapter ws LoopState.init
  simpa [readQueue, LoopState.init] using h

/-! ## Results on flushBuffer -/

theorem unmarshalLoop_decodable (env : FlushEnv) (line : Line) (rest : List Line)
    (hok : ∀ msg, (env.Unmarshal line.Log msg).2 = none) (pre : List Line) :
    ∀ (msg : Message) (logs : List Message) (out : List LogEntry),
      unmarshalLoop env (pre ++ line :: rest) msg logs out = .error .nilDereference := by
  induction pre with
  | nil =>
    intro msg logs out
    have h := hok msg
    simp only [List.nil_append, unmarshalLoop]
    split
    · rfl
    · rename_i heq
      rw [heq] at h
      simp at h
  | cons p pre ih =>
    intro msg logs out
    simp only [List.cons_append, unmarshalLoop]
    split
    · rfl
    · exact ih _ _ _

theorem unmarshalLoop_undecodable (env : FlushEnv) (buffer : List Line)
    (hbad : ∀ line ∈ buffer, ∀ msg, (env.Unmarshal line.Log msg).2 ≠ none) :
    ∀ (msg : Message) (logs : List Message) (out : List LogEntry),
      ∃ logs1 out1, unmarshalLoop env buffer msg logs out = .ok (logs1, out1) ∧
        logs1.length = logs.length + buffer.length := by
  induction buffer with
  | nil =>
    intro msg logs out
    exact ⟨logs, out, rfl, rfl⟩
  | cons line rest ih =>
    intro msg logs out
    have h := hbad line (by simp) msg
    simp only [unmarshalLoop]
    split
    · rename_i heq
      rw [heq] at h
      simp at h
    · rename_i msg1 e heq
      obtain ⟨logs1, out1, h1, h2⟩ :=
        ih (fun l hl => hbad l (by simp [hl])) msg1 (logs ++ [msg1]) (out ++ [.unmarshalling e])
      refine ⟨logs1, out1, h1, ?_⟩
      rw [h2]
      simp
      omega

/-- C4 (the code departs from the claim): whenever a line of the batch decodes
successfully, `flushBuffer` panics on the nil error before any body is built;
and when no line of the batch decodes, every line still contributes a record to
the `logs` array instead of being left out. -/
theorem flushBuffer_body_fault (env : FlushEnv) (buffer : List Line) :
    (∀ pre line rest, buffer = pre ++ line :: rest →
        (∀ msg, (env.Unmarshal line.Log msg).2 = none) →
        flushBuffer env buffer = .error .nilDereference) ∧
      ((∀ line ∈ buffer, ∀ msg, (env.Unmarshal line.Log msg).2 ≠ none) →
        ∀ t, flushBuffer env buffer = .ok t → t.logs.length = buffer.length) := by
  constructor
  · intro pre line rest hb hok
    unfold flushBuffer
    rw [hb, unmarshalLoop_decodable env line rest hok pre]
  · intro hbad t ht
    obtain ⟨logs1, out1, h1, h2⟩ := unmarshalLoop_undecodable env buffer hbad zeroMessage [] []
    unfold flushBuffer at ht
    rw [h1] at ht
    simp only at ht
    have hlen : logs1.length = buffer.length := by simpa using h2
    split at ht
    · cases ht
      exact hlen
    · split at ht
      · cases ht
      · split at ht
        · split at ht <;> cases ht <;> exact hlen
        · split at ht <;> cases ht <;> exact hlen
        · cases ht
          exact hlen

theorem flushBuffer_body_fault_witness :
    flushBuffer (sampleEnv (some { StatusCode := 200 }, none))
        [{ Log := lit "\x7b\x7d", Retried := 0 }] = .error .nilDereference ∧
      flushBuffer (sampleEnv (some { StatusCode := 200 }, none))
        [{ Log := lit "", Retried := 0 }] = .ok undecodableTrace ∧
      undecodableTrace.logs.length = [({ Log := lit "", Retried := 0 } : Line)].length :=
  ⟨(flushBuffer_body_fault (sampleEnv (some { StatusCode := 200 }, none))
      [{ Log := lit "\x7b\x7d", Retried := 0 }]).1 [] { Log := lit "\x7b\x7d", Retried := 0 } []
      rfl (fun _ => by simp [sampleEnv]),
    rfl,
    (flushBuffer_body_fault (sampleEnv (some { StatusCode := 200 }, none))
      [{ Log := lit "", Retried := 0 }]).2
      (fun line hmem msg => by
        rw [List.mem_singleton.mp hmem]
        have hne : lit "" ≠ lit "\x7b\x7d" := by decide
        simp [sampleEnv, hne])
      undecodableTrace rfl⟩

/-- A run of `flushBuffer` that reaches `HTTPClient.Do` leaves the retry
decision to the error returned by the call. -/
theorem flushBuffer_posted (env : FlushEnv) (buffer : List Line) (t : FlushTrace)
    (data : GoString) (ht : flushBuffer env buffer = .ok t) (hp : t.posted = some data) :
    t.retried =
      match (env.Do data).2 with
      | some err => if err.isNetError then some buffer else none
      | none => none := by
  unfold flushBuffer at ht
  split at ht
  · cases ht
  · split at ht
    · cases ht
      simp at hp
    · split at ht
      · cases ht
      · split at ht
        · rename_i heq
          split at ht
          · rename_i hnet
            cases ht
            simp only [Option.some.injEq] at hp
            subst hp
            simp [heq, hnet]
          · rename_i hnet
            cases ht
            simp only [Option.some.injEq] at hp
            subst hp
            simp [heq, hnet]
        · rename_i heq
          split at ht <;>
          · cases ht
            simp only [Option.some.injEq] at hp
            subst hp
            simp [heq]
        · rename_i heq
          cases ht
          simp only [Option.some.injEq] at hp
          subst hp
          simp [heq]

/-- C3: for a batch that reaches the HTTP call, `flushBuffer` hands the batch
to `retry` if and only if the call fails with an error that is a `net.Error`,
and then it hands over the whole batch; when the call returns a response and no
error, whatever the status code, nothing is handed to `retry`. -/
theorem flushBuffer_classification (env : FlushEnv) (buffer : List Line) (t : FlushTrace)
    (data : GoString) (ht : flushBuffer env buffer = .ok t) (hp : t.posted = some data) :
    (t.retried ≠ none ↔ ∃ err, (env.Do data).2 = some err ∧ err.isNetError = true) ∧
      (t.retried ≠ none → t.retried = some buffer) ∧
      (∀ resp, env.Do data = (some resp, none) → t.retried = none) ∧
      ((env.Do data).2 = none → t.retried = none) := by
  have h := flushBuffer_posted env buffer t data ht hp
  refine ⟨?_, ?_, ?_, ?_⟩
  · constructor
    · intro hne
      cases hdo : (env.Do data).2 with
      | none => rw [hdo] at h; exact absurd h hne
      | some err =>
        rw [hdo] at h
        by_cases hnet : err.isNetError = true
        · exact ⟨err, rfl, hnet⟩
        · simp only [hnet] at h
          exact absurd h hne
    · rintro ⟨err, herr, hnet⟩
      rw [herr] at h
      simp [h, hnet]
  · intro hne
    cases hdo : (env.Do data).2 with
    | none => rw [hdo] at h; exact absurd h hne
    | some err =>
      rw [hdo] at h
      by_cases hnet : err.isNetError = true
      · simpa [hnet] using h
      · simp only [hnet] at h
        exact absurd h hne
  · intro resp hresp
    rw [hresp] at h
    exact h
  · intro hnone
    rw [hnone] at h
    exact h

theorem flushBuffer_classification_witness :
    flushBuffer (sampleEnv (none, some connectionRefused)) undecodableBatch =
        .ok refusedTrace ∧
      refusedTrace.posted = some [0, 0] ∧
      refusedTrace.retried = some undecodableBatch ∧
      flushBuffer (sampleEnv (some { StatusCode := 500 }, none)) undecodableBatch =
        .ok rejectedTrace ∧
      rejectedTrace.posted = some [0, 0] ∧
      rejectedTrace.retried = none :=
  ⟨rfl, rfl,
    (flushBuffer_classification (sampleEnv (none, some connectionRefused)) undecodableBatch
      refusedTrace [0, 0] rfl rfl).2.1 (by decide),
    rfl, rfl,
    (flushBuffer_classification (sampleEnv (some { StatusCode := 500 }, none)) undecodableBatch
      rejectedTrace [0, 0] rfl rfl).2.2.1 { StatusCode := 500 } rfl⟩

/-! ## Results on the loop of readQueue with flushBuffer run -/

/-- A batch with a line that decodes makes `flushBuffer` panic. -/
theorem flushBuffer_decodable (env : FlushEnv) (pre : List Line) (line : Line)
    (rest : List Line) (hok : ∀ msg, (env.Unmarshal line.Log msg).2 = none) :
    flushBuffer env (pre ++ line :: rest) = .error .nilDereference := by
  unfold flushBuffer
  rw [unmarshalLoop_decodable env line rest hok pre]

theorem readQueueIter_msg_flush (adapter : Adapter) (env : FlushEnv) (s : LoopState)
    (msg : Line) (h : adapter.MaxBufferSize ≤ s.byteSize) :
    readQueueIter adapter env s (.msg msg) =
      match flushBuffer env s.buffer with
      | .error p => .error p
      | .ok _ => .ok ([s.buffer], { buffer := [msg], byteSize := msg.Log.length }) := by
  simp only [readQueueIter, ge_iff_le, h, if_true, List.nil_append, Nat.zero_add]

theorem readQueueIter_msg_append (adapter : Adapter) (env : FlushEnv) (s : LoopState)
    (msg : Line) (h : s.byteSize < adapter.MaxBufferSize) :
    readQueueIter adapter env s (.msg msg) =
      .ok ([], { buffer := s.buffer ++ [msg], byteSize := s.byteSize + msg.Log.length }) := by
  have h1 : ¬ adapter.MaxBufferSize ≤ s.byteSize := by omega
  simp only [readQueueIter, ge_iff_le, h1, if_false]

theorem readQueueIter_timeout_nonempty (adapter : Adapter) (env : FlushEnv) (s : LoopState)
    (h : s.buffer ≠ []) :
    readQueueIter adapter env s .timeout =
      match flushBuffer env s.buffer with
      | .error p => .error p
      | .ok _ => .ok ([s.buffer], { buffer := [], byteSize := 0 }) := by
  have hlen : s.buffer.length > 0 := List.length_pos.mpr h
  simp only [readQueueIter, hlen, if_true]

theorem readQueueIter_timeout_empty (adapter : Adapter) (env : FlushEnv) (s : LoopState)
    (h : s.buffer = []) : readQueueIter adapter env s .timeout = .ok ([], s) := by
  simp [readQueueIter, h]

/-- An iteration that returns has made the step of `readQueueStep`. -/
theorem readQueueIter_ok (adapter : Adapter) (env : FlushEnv) (s : LoopState) (w : Wakeup)
    (r : List (List Line) × LoopState) (h : readQueueIter adapter env s w = .ok r) :
    r = readQueueStep adapter s w := by
  cases w with
  | msg m =>
    by_cases hs : adapter.MaxBufferSize ≤ s.byteSize
    · rw [readQueueIter_msg_flush adapter env s m hs] at h
      rw [readQueueStep_msg, if_pos hs]
      split at h
      · cases h
      · cases h
        rfl
    · rw [readQueueIter_msg_append adapter env s m (by omega)] at h
      rw [readQueueStep_msg, if_neg hs]
      cases h
      rfl
  | timeout =>
    by_cases hb : s.buffer = []
    · rw [readQueueIter_timeout_empty adapter env s hb] at h
      rw [readQueueStep_timeout_empty adapter s hb]
      cases h
      rfl
    · rw [readQueueIter_timeout_nonempty adapter env s hb] at h
      rw [readQueueStep_timeout_nonempty adapter s hb]
      split at h
      · cases h
      · cases h
        rfl

/-- A run of the loop that returns is the run of `readQueueFrom`. -/
theorem readQueueLoopFrom_ok (adapter : Adapter) (envs : Nat → FlushEnv) (ws : List Wakeup) :
    ∀ (i : Nat) (s : LoopState) (r : List (List Line) × LoopState),
      readQueueLoopFrom adapter envs i s ws = .ok r → r = readQueueFrom adapter s ws := by
  induction ws with
  | nil =>
    intro i s r h
    simp only [readQueueLoopFrom] at h
    cases h
    rfl
  | cons w ws ih =>
    intro i s r h
    simp only [readQueueLoopFrom] at h
    split at h
    · cases h
    · rename_i r1 h1
      split at h
      · cases h
      · rename_i r2 h2
        cases h
        have e1 := readQueueIter_ok adapter (envs i) s w r1 h1
        have e2 := ih (i + 1) r1.2 r2 h2
        simp only [readQueueFrom]
        rw [← e1, ← e2]

/-- The byte-size invariant in every state that the running loop reaches. -/
theorem readQueueLoop_byteSize (adapter : Adapter) (envs : Nat → FlushEnv) (ws : List Wakeup)
    (r : List (List Line) × LoopState) (h : readQueueLoop adapter envs ws = .ok r) :
    r.2.byteSize = logBytes r.2.buffer := by
  rw [readQueueLoopFrom_ok adapter envs ws 0 LoopState.init r h]
  exact readQueueFrom_byteSize adapter ws LoopState.init rfl

/-- Conservation of the arrived lines in every run of the running loop that returns. -/
theorem readQueueLoop_conserves (adapter : Adapter) (envs : Nat → FlushEnv) (ws : List Wakeup)
    (r : List (List Line) × LoopState) (h : readQueueLoop adapter envs ws = .ok r) :
    r.1.flatten ++ r.2.buffer = arrivals ws := by
  rw [readQueueLoopFrom_ok adapter envs ws 0 LoopState.init r h]
  have hc := readQueueFrom_conserves adapter ws LoopState.init
  simpa [LoopState.init] using hc

/-- C5 (amended): the size check of `readQueue` precedes the append. If the
byte size accumulated before an arrival is already at least `MaxBufferSize`,
handling the arrival gives exactly the lines buffered before it, without the
arriving line, to `flushBuffer`, and when that call returns the accumulator
holds only the arriving line, with byte size its length; otherwise
`flushBuffer` is not called and the line is appended. So after an arrival the
buffer always ends with the arriving line, and when the byte size after the
arrival is at least `MaxBufferSize`, it is the very next wakeup, be it an arrival
or a timer expiry, that gives the whole buffer to `flushBuffer`. -/
theorem arrival_flush (adapter : Adapter) (env : FlushEnv) (s : LoopState) (msg : Line) :
    (adapter.MaxBufferSize ≤ s.byteSize →
        readQueueIter adapter env s (.msg msg) =
          match flushBuffer env s.buffer with
          | .error p => .error p
          | .ok _ => .ok ([s.buffer], { buffer := [msg], byteSize := msg.Log.length })) ∧
      (s.byteSize < adapter.MaxBufferSize →
        readQueueIter adapter env s (.msg msg) =
          .ok ([], { buffer := s.buffer ++ [msg], byteSize := s.byteSize + msg.Log.length })) ∧
      (∀ r, readQueueIter adapter env s (.msg msg) = .ok r →
        (∃ before, r.2.buffer = before ++ [msg]) ∧
          (adapter.MaxBufferSize ≤ r.2.byteSize →
            ∀ (env2 : FlushEnv) (w : Wakeup),
              readQueueIter adapter env2 r.2 w =
                match flushBuffer env2 r.2.buffer with
                | .error p => .error p
                | .ok _ =>
                  .ok ([r.2.buffer],
                    match w with
                    | .msg m => { buffer := [m], byteSize := m.Log.length }
                    | .timeout => { buffer := [], byteSize := 0 }))) := by
  refine ⟨readQueueIter_msg_flush adapter env s msg, readQueueIter_msg_append adapter env s msg, ?_⟩
  intro r hr
  have hstep := readQueueIter_ok adapter env s (.msg msg) r hr
  have hbuf : ∃ before, r.2.buffer = before ++ [msg] := by
    rw [hstep, readQueueStep_msg]
    split
    · exact ⟨[], rfl⟩
    · exact ⟨s.buffer, rfl⟩
  refine ⟨hbuf, ?_⟩
  intro hsize env2 w
  have hne : r.2.buffer ≠ [] := by
    obtain ⟨before, hb⟩ := hbuf
    rw [hb]
    simp
  cases w with
  | msg m => rw [readQueueIter_msg_flush adapter env2 r.2 m hsize]
  | timeout => rw [readQueueIter_timeout_nonempty adapter env2 r.2 hne]

theorem arrival_flush_witness :
    readQueueIter (sampleAdapter 0 100 2) (sampleEnv (some { StatusCode := 200 }, none))
        { buffer := [emptyLine], byteSize := 0 } (.msg (freshLine (lit "logs"))) =
        .ok ([[emptyLine]], { buffer := [freshLine (lit "logs")], byteSize := 4 }) ∧
      readQueueIter (sampleAdapter 4 100 2) (sampleEnv (some { StatusCode := 200 }, none))
        LoopState.init (.msg (freshLine (lit "logs"))) =
        .ok ([], { buffer := [freshLine (lit "logs")], byteSize := 4 }) ∧
      readQueueIter (sampleAdapter 0 100 2) (sampleEnv (some { StatusCode := 200 }, none))
        { buffer := [emptyLine], byteSize := 0 } .timeout =
        .ok ([[emptyLine]], { buffer := [], byteSize := 0 }) :=
  ⟨((arrival_flush (sampleAdapter 0 100 2) (sampleEnv (some { StatusCode := 200 }, none))
      { buffer := [emptyLine], byteSize := 0 } (freshLine (lit "logs"))).1 (by decide)).trans rfl,
    ((arrival_flush (sampleAdapter 4 100 2) (sampleEnv (some { StatusCode := 200 }, none))
      LoopState.init (freshLine (lit "logs"))).2.1 (by decide)).trans rfl,
    (((arrival_flush (sampleAdapter 0 100 2) (sampleEnv (some { StatusCode := 200 }, none))
      LoopState.init emptyLine).2.2 ([[]], { buffer := [emptyLine], byteSize := 0 }) rfl).2
      (by decide) (sampleEnv (some { StatusCode := 200 }, none)) .timeout).trans rfl⟩

/-- C6 (the code departs from the claim): on a timer expiry with a non-empty
buffer `readQueue` calls `flushBuffer` once, on the whole buffer, and the
accumulator becomes empty only when that call returns; whenever a line of the
buffer decodes, the call panics on the nil error of `flushBuffer` and the loop
ends with the accumulator never emptied. With an empty buffer there is no call
and the accumulator is unchanged. -/
theorem timeout_flush_fault (adapter : Adapter) (env : FlushEnv) (s : LoopState) :
    (s.buffer ≠ [] →
        readQueueIter adapter env s .timeout =
          match flushBuffer env s.buffer with
          | .error p => .error p
          | .ok _ => .ok ([s.buffer], { buffer := [], byteSize := 0 })) ∧
      (s.buffer = [] → readQueueIter adapter env s .timeout = .ok ([], s)) ∧
      (∀ pre line rest, s.buffer = pre ++ line :: rest →
        (∀ msg, (env.Unmarshal line.Log msg).2 = none) →
        readQueueIter adapter env s .timeout = .error .nilDereference) := by
  refine ⟨readQueueIter_timeout_nonempty adapter env s,
    readQueueIter_timeout_empty adapter env s, ?_⟩
  intro pre line rest hb hok
  have hne : s.buffer ≠ [] := by
    rw [hb]
    simp
  rw [readQueueIter_timeout_nonempty adapter env s hne, hb,
    flushBuffer_decodable env pre line rest hok]

theorem timeout_flush_fault_witness :
    readQueueIter (sampleAdapter 100 100 2) (sampleEnv (some { StatusCode := 200 }, none))
        { buffer := [jsonLine], byteSize := 2 } .timeout = .error .nilDereference ∧
      readQueueIter (sampleAdapter 100 100 2) (sampleEnv (some { StatusCode := 200 }, none))
        { buffer := [], byteSize := 0 } .timeout = .ok ([], { buffer := [], byteSize := 0 }) :=
  ⟨(timeout_flush_fault (sampleAdapter 100 100 2) (sampleEnv (some { StatusCode := 200 }, none))
      { buffer := [jsonLine], byteSize := 2 }).2.2 [] jsonLine [] rfl
      (fun _ => by simp [sampleEnv, jsonLine, freshLine]),
    (timeout_flush_fault (sampleAdapter 100 100 2) (sampleEnv (some { StatusCode := 200 }, none))
      { buffer := [], byteSize := 0 }).2.1 rfl⟩

/-- C7 (the code departs from the claim): for lines `e1`, `e2`, `e3` with
`len(e1) < MaxBufferSize <= len(e1) + len(e2)`, handling the arrivals `e1`,
`e2`, `e3` from the empty accumulator calls `flushBuffer` once, on `[e1, e2]`,
while handling `e3`, and ends with the buffer `[e3]` only when that call
returns; whenever `e1` or `e2` decodes, the call panics on the nil error of
`flushBuffer` and the buffer `[e3]` is never reached. -/
theorem scenario_A_fault (adapter : Adapter) (envs : Nat → FlushEnv) (e1 e2 e3 : Line)
    (h1 : e1.Log.length < adapter.MaxBufferSize)
    (h2 : adapter.MaxBufferSize ≤ e1.Log.length + e2.Log.length) :
    (readQueueLoop adapter envs [.msg e1, .msg e2, .msg e3] =
        match flushBuffer (envs 2) [e1, e2] with
        | .error p => .error p
        | .ok _ => .ok ([[e1, e2]], { buffer := [e3], byteSize := e3.Log.length })) ∧
      (((∀ msg, ((envs 2).Unmarshal e1.Log msg).2 = none) ∨
          (∀ msg, ((envs 2).Unmarshal e2.Log msg).2 = none)) →
        readQueueLoop adapter envs [.msg e1, .msg e2, .msg e3] = .error .nilDereference) := by
  have hloop : readQueueLoop adapter envs [.msg e1, .msg e2, .msg e3] =
      match flushBuffer (envs 2) [e1, e2] with
      | .error p => .error p
      | .ok _ => .ok ([[e1, e2]], { buffer := [e3], byteSize := e3.Log.length }) := by
    have h0 : LoopState.init.byteSize < adapter.MaxBufferSize := by
      simp only [LoopState.init]
      omega
    simp only [readQueueLoop, readQueueLoopFrom]
    rw [readQueueIter_msg_append adapter (envs 0) LoopState.init e1 h0]
    simp only [LoopState.init, Nat.zero_add, List.nil_append]
    rw [readQueueIter_msg_append adapter (envs 1) _ e2 (by simpa using h1)]
    simp only [List.singleton_append]
    rw [readQueueIter_msg_flush adapter (envs 2) _ e3 (by simpa using h2)]
    cases flushBuffer (envs 2) [e1, e2] <;> simp
  refine ⟨hloop, ?_⟩
  intro hdec
  rw [hloop]
  rcases hdec with hd | hd
  · have hfb := flushBuffer_decodable (envs 2) [] e1 [e2] hd
    simp only [List.nil_append] at hfb
    rw [hfb]
  · have hfb := flushBuffer_decodable (envs 2) [e1] e2 [] hd
    simp only [List.singleton_append] at hfb
    rw [hfb]

theorem scenario_A_fault_witness :
    jsonLine.Log.length < (sampleAdapter 4 100 2).MaxBufferSize ∧
      (sampleAdapter 4 100 2).MaxBufferSize ≤ jsonLine.Log.length + jsonLine.Log.length ∧
      readQueueLoop (sampleAdapter 4 100 2) (fun _ => sampleEnv (some { StatusCode := 200 }, none))
        [.msg jsonLine, .msg jsonLine, .msg jsonLine] = .error .nilDereference :=
  ⟨by decide, by decide,
    (scenario_A_fault (sampleAdapter 4 100 2)
      (fun _ => sampleEnv (some { StatusCode := 200 }, none)) jsonLine jsonLine jsonLine
      (by decide) (by decide)).2
      (Or.inl (fun _ => by simp [sampleEnv, jsonLine, freshLine]))⟩

end Newrelic
